import Mathlib

/-!
Verification development for the HighLevel audit API server (src/server.js).

The source file concatenates four revisions of the same Express service
(v2.3 lines 1-1608, v2.7 lines 1610-3259, v2.0 lines 3261-3801, v2.1
lines 3804-4609).  The definitions below are a shallow embedding of the
v2.7 handlers (and, where a claim also cites it, the v2.3 restore
handler):

* the message-classification / transcription / timeline part of
  `POST /api/analyze-contact` (v2.7, lines 2566-2703);
* the prompt store handlers `POST /api/prompts`,
  `POST /api/prompts/:id/restore`, `DELETE /api/prompts/:id`
  (v2.7, lines 2309-2489; v2.3 restore, lines 732-775);
* the pagination loop of `GET /api/opportunities`
  (v2.7, lines 1843-1942).

Conventions of the embedding:

* Timestamps (`dateAdded`) are modeled as natural numbers (epoch
  milliseconds); the JS code compares `new Date(a.date) - new Date(b.date)`,
  which for valid timestamps is exactly comparison of the epoch values.
* A JS string field that may be `undefined` is an `Option String`.
  Rendering an `Option String` inside a template literal follows JS
  semantics: `undefined` renders as the literal text "undefined".
* The supabase call `.single()` yields an error (code PGRST116) when the
  filtered row set does not have exactly one row; the server itself relies
  on this (it checks error.code against PGRST116 at lines 2284 and 2745),
  so the embedding makes `.single()` fail on 0 or 2+ rows.
* Network effects are abstracted as oracle functions: call transcription
  (download + whisper, the whole per-call `try` block) is a function
  `Nat → Option TransResult` (`none` = the catch at line 2624 fired), and
  the opportunity search upstream is a function `String → OppPage` from
  request URL to response page.
* ECMAScript 2019 requires `Array.prototype.sort` to be stable; for the
  comparator `new Date(a.date) - new Date(b.date)` (a total preorder on
  valid dates) the result is therefore the unique stable sort by
  timestamp, which `sortByDate` below computes by stable insertion.
-/

/-- A raw message as returned by the conversations API
(v2.7 lines 2582-2587): `type` may be absent, `body` and `direction`
are used for non-call messages, `dateAdded` is the timestamp. -/
structure RawMsg where
  id : Nat
  type : Option String
  body : String
  direction : Option String
  dateAdded : Nat
deriving Repr, DecidableEq

/-- Result of a successful transcription (whisper response, line 2605). -/
structure TransResult where
  text : String
  duration : Nat
deriving Repr, DecidableEq

/-- An entry pushed onto `allMessages` (v2.7 lines 2619-2640).
CALL entries carry no direction (the push at line 2619 omits it). -/
structure Entry where
  type : String
  content : String
  direction : Option String
  date : Nat
deriving Repr, DecidableEq

/-- A record pushed onto `transcriptions` (v2.7 lines 2611-2617). -/
structure TransRec where
  messageId : Nat
  type : String
  text : String
  duration : Nat
  date : Nat
deriving Repr, DecidableEq

/-- One conversation: its fetched message list (v2.7 lines 2570-2583). -/
structure Conv where
  id : Nat
  messages : List RawMsg
deriving Repr, DecidableEq

/-- JS falsiness of a possibly-absent string (`!msg.type` at line 2634):
undefined/null and the empty string are falsy. -/
def jsFalsyStr (o : Option String) : Bool :=
  match o with
  | none => true
  | some s => s == ""

/-- The per-message body of the classification loop (v2.7 lines 2587-2642).
`transcribe` is the oracle for the whole `try` block at lines 2589-2623
(recording download + whisper call); `none` means the catch at line 2624
fired, in which case neither list receives anything.  The WHATSAPP guard
is `msg.type === TYPE_WHATSAPP || !msg.type` (line 2634), so a falsy
type — absent or the empty string — also lands there. -/
def processMsg (includeCalls includeSMS includeWhatsApp : Bool)
    (transcribe : Nat → Option TransResult) (m : RawMsg) :
    List Entry × List TransRec :=
  if m.type == some "TYPE_CALL" && includeCalls then
    match transcribe m.id with
    | some t =>
        ([⟨"CALL", t.text, none, m.dateAdded⟩],
         [⟨m.id, "CALL", t.text, t.duration, m.dateAdded⟩])
    | none => ([], [])
  else if m.type == some "TYPE_SMS" && includeSMS then
    ([⟨"SMS", m.body, m.direction, m.dateAdded⟩], [])
  else if (m.type == some "TYPE_WHATSAPP" || jsFalsyStr m.type) &&
      includeWhatsApp then
    ([⟨"WHATSAPP", m.body, m.direction, m.dateAdded⟩], [])
  else
    ([], [])

/-- The classification loop over a message list: `allMessages` and
`transcriptions` accumulate in encounter order (v2.7 lines 2587-2642). -/
def processMessages (includeCalls includeSMS includeWhatsApp : Bool)
    (transcribe : Nat → Option TransResult) :
    List RawMsg → List Entry × List TransRec
  | [] => ([], [])
  | m :: ms =>
    let r := processMsg includeCalls includeSMS includeWhatsApp transcribe m
    let rest := processMessages includeCalls includeSMS includeWhatsApp transcribe ms
    (r.1 ++ rest.1, r.2 ++ rest.2)

/-- Messages of all conversations in fetch order: the nested loop at
v2.7 lines 2570-2643 appends to shared arrays, which is processing the
concatenation of the per-conversation message lists. -/
def gatherMessages (convs : List Conv) : List RawMsg :=
  (convs.map (fun c => c.messages)).flatten

/-- Stable insertion of an entry into a timeline: the entry is placed
before the first existing entry with an equal-or-later timestamp. -/
def insertByDate (m : Entry) : List Entry → List Entry
  | [] => [m]
  | n :: ns => if m.date ≤ n.date then m :: n :: ns else n :: insertByDate m ns

/-- The stable sort by timestamp performed at v2.7 lines 2659-2661
(`allMessages.sort((a, b) => new Date(a.date) - new Date(b.date))`).
ES2019 guarantees the sort is stable, so it denotes this function. -/
def sortByDate : List Entry → List Entry
  | [] => []
  | m :: ms => insertByDate m (sortByDate ms)

/-- A contact as returned by the contacts API (v2.7 line 2546):
name parts may be absent. -/
structure Contact where
  firstName : Option String
  lastName : Option String
  email : Option String
  phone : Option String
deriving Repr, DecidableEq

/-- JS template-literal rendering of a possibly-absent string:
`undefined` interpolates as the literal text "undefined". -/
def jsShow (o : Option String) : String :=
  match o with
  | some s => s
  | none => "undefined"

/-- JS `x || d` on a possibly-absent string: the empty string is falsy. -/
def jsOr (o : Option String) (d : String) : String :=
  match o with
  | some s => if s = "" then d else s
  | none => d

/-- JS String.prototype.trim: whitespace removed from both ends.
Defined structurally over the character list so it evaluates. -/
def jsTrim (s : String) : String :=
  String.mk
    (((s.data.dropWhile Char.isWhitespace).reverse.dropWhile
        Char.isWhitespace).reverse)

/-- The display-name derivation of the contacts list endpoint
(v2.7 line 1662): missing parts default to the empty string and the
concatenation is trimmed. -/
def displayName (c : Contact) : String :=
  jsTrim (jsOr c.firstName "" ++ " " ++ jsOr c.lastName "")

/-- The fields of the analyze-contact run that the claims talk about:
the persisted row of v2.7 lines 2684-2701 plus the pre-sort
`allMessages` list (encounter order) and the sorted timeline. -/
structure AnalyzeResult where
  contactName : String
  allMessages : List Entry
  sortedTimeline : List Entry
  transcriptions : List TransRec
  totalMessages : Nat
  totalCalls : Nat
deriving Repr, DecidableEq

/-- The message-processing and persistence core of
`POST /api/analyze-contact` (v2.7 lines 2566-2703), after prompt
resolution and the contact / conversation fetches have succeeded.
`contact_name` is the raw template at line 2689, `metadata.totalMessages`
and `metadata.totalCalls` are the lengths at lines 2696-2697. -/
def analyzeContact (c : Contact) (convs : List Conv)
    (includeCalls includeSMS includeWhatsApp : Bool)
    (transcribe : Nat → Option TransResult) : AnalyzeResult :=
  let r := processMessages includeCalls includeSMS includeWhatsApp transcribe
    (gatherMessages convs)
  { contactName := jsShow c.firstName ++ " " ++ jsShow c.lastName
    allMessages := r.1
    sortedTimeline := sortByDate r.1
    transcriptions := r.2
    totalMessages := r.1.length
    totalCalls := r.2.length }

/-- The call messages among the gathered raw messages. -/
def callMessages (convs : List Conv) : List RawMsg :=
  (gatherMessages convs).filter (fun m => m.type == some "TYPE_CALL")

/-- The call messages whose transcription oracle succeeds. -/
def okCalls (transcribe : Nat → Option TransResult) (convs : List Conv) :
    List RawMsg :=
  (gatherMessages convs).filter
    (fun m => m.type == some "TYPE_CALL" && (transcribe m.id).isSome)

/-! ### Sorting lemmas for the timeline (claim C3) -/

theorem mem_insertByDate {a m : Entry} {l : List Entry} :
    a ∈ insertByDate m l ↔ a = m ∨ a ∈ l := by
  induction l with
  | nil => simp [insertByDate]
  | cons n ns ih =>
    simp only [insertByDate]
    by_cases h : m.date ≤ n.date
    · simp [h]
    · simp only [if_neg h, List.mem_cons, ih]
      tauto

theorem sorted_insertByDate {m : Entry} {l : List Entry}
    (hl : l.Sorted (fun a b => a.date ≤ b.date)) :
    (insertByDate m l).Sorted (fun a b => a.date ≤ b.date) := by
  induction l with
  | nil => simp [insertByDate]
  | cons n ns ih =>
    rw [List.sorted_cons] at hl
    simp only [insertByDate]
    by_cases h : m.date ≤ n.date
    · rw [if_pos h, List.sorted_cons]
      refine ⟨?_, ?_⟩
      · intro b hb
        rw [List.mem_cons] at hb
        rcases hb with rfl | hb
        · exact h
        · exact le_trans h (hl.1 b hb)
      · rw [List.sorted_cons]
        exact hl
    · rw [if_neg h, List.sorted_cons]
      refine ⟨?_, ih hl.2⟩
      intro b hb
      rcases mem_insertByDate.mp hb with hb | hb
      · subst hb
        exact le_of_not_le h
      · exact hl.1 b hb

theorem sorted_sortByDate (l : List Entry) :
    (sortByDate l).Sorted (fun a b => a.date ≤ b.date) := by
  induction l with
  | nil => simp [sortByDate]
  | cons m ms ih => exact sorted_insertByDate ih

theorem filter_insertByDate (m : Entry) (l : List Entry) (t : Nat) :
    (insertByDate m l).filter (fun e => e.date == t) =
      if m.date = t then m :: l.filter (fun e => e.date == t)
      else l.filter (fun e => e.date == t) := by
  induction l with
  | nil =>
    by_cases h : m.date = t
    · have hb : (m.date == t) = true := by simpa using h
      simp [insertByDate, List.filter, hb, h]
    · have hb : (m.date == t) = false := by simpa using h
      simp [insertByDate, List.filter, hb, h]
  | cons n ns ih =>
    simp only [insertByDate]
    by_cases h1 : m.date ≤ n.date
    · rw [if_pos h1]
      by_cases h : m.date = t
      · simp [List.filter_cons, h]
      · simp [List.filter_cons, h]
    · rw [if_neg h1]
      by_cases h : m.date = t
      · have hn : ¬ n.date = t := by omega
        rw [if_pos h]
        simp [List.filter_cons, hn, ih, h]
      · rw [if_neg h]
        by_cases hn : n.date = t
        · simp [List.filter_cons, hn, ih, h]
        · simp [List.filter_cons, hn, ih, h]

theorem filter_sortByDate (l : List Entry) (t : Nat) :
    (sortByDate l).filter (fun e => e.date == t) =
      l.filter (fun e => e.date == t) := by
  induction l with
  | nil => rfl
  | cons m ms ih =>
    simp only [sortByDate, filter_insertByDate, ih]
    by_cases h : m.date = t
    · simp [List.filter_cons, h]
    · simp [List.filter_cons, h]

/-! ### Per-message classification lemmas -/

theorem processMsg_call_spec (includeSMS includeWhatsApp : Bool)
    (tr : Nat → Option TransResult) (m : RawMsg) :
    ((processMsg true includeSMS includeWhatsApp tr m).2.map
        (fun r => r.messageId) =
      if m.type == some "TYPE_CALL" && (tr m.id).isSome then [m.id] else []) ∧
    (((processMsg true includeSMS includeWhatsApp tr m).1.filter
        (fun e => e.type == "CALL")).map (fun e => e.date) =
      if m.type == some "TYPE_CALL" && (tr m.id).isSome then [m.dateAdded]
      else []) := by
  by_cases hc : (m.type == some "TYPE_CALL") = true
  · simp only [processMsg, hc, Bool.true_and, if_pos rfl]
    cases htr : tr m.id with
    | some t => simp [htr]
    | none => simp [htr]
  · have hc2 : (m.type == some "TYPE_CALL") = false := by
      simpa using hc
    simp only [processMsg, hc2, Bool.false_and, Bool.false_eq_true, if_false]
    by_cases hs : (m.type == some "TYPE_SMS" && includeSMS) = true
    · simp [hs]
    · simp only [hs, if_false, Bool.false_eq_true]
      by_cases hw :
          ((m.type == some "TYPE_WHATSAPP" || jsFalsyStr m.type) && includeWhatsApp)
            = true
      · simp [hw]
      · simp [hw]

theorem processMessages_call_spec (includeSMS includeWhatsApp : Bool)
    (tr : Nat → Option TransResult) (msgs : List RawMsg) :
    ((processMessages true includeSMS includeWhatsApp tr msgs).2.map
        (fun r => r.messageId) =
      (msgs.filter
        (fun m => m.type == some "TYPE_CALL" && (tr m.id).isSome)).map
        (fun m => m.id)) ∧
    (((processMessages true includeSMS includeWhatsApp tr msgs).1.filter
        (fun e => e.type == "CALL")).map (fun e => e.date) =
      (msgs.filter
        (fun m => m.type == some "TYPE_CALL" && (tr m.id).isSome)).map
        (fun m => m.dateAdded)) := by
  induction msgs with
  | nil => simp [processMessages]
  | cons m ms ih =>
    have hm := processMsg_call_spec includeSMS includeWhatsApp tr m
    by_cases hc : (m.type == some "TYPE_CALL" && (tr m.id).isSome) = true
    · constructor
      · simp [processMessages, List.filter_cons, hc, hm.1, ih.1]
      · simp [processMessages, List.filter_cons, List.filter_append, hc,
          hm.2, ih.2]
    · have hc2 : (m.type == some "TYPE_CALL" && (tr m.id).isSome) = false := by
        simpa using hc
      constructor
      · simp [processMessages, List.filter_cons, hc2, hm.1, ih.1]
      · simp [processMessages, List.filter_cons, List.filter_append, hc2,
          hm.2, ih.2]

theorem processMsg_no_calls (includeSMS includeWhatsApp : Bool)
    (tr : Nat → Option TransResult) (m : RawMsg) :
    (processMsg false includeSMS includeWhatsApp tr m).2 = [] ∧
    ∀ e ∈ (processMsg false includeSMS includeWhatsApp tr m).1,
      e.type ≠ "CALL" := by
  simp only [processMsg, Bool.and_false, Bool.false_eq_true, if_false]
  by_cases hs : (m.type == some "TYPE_SMS" && includeSMS) = true
  · simp [hs]
  · simp only [hs, if_false, Bool.false_eq_true]
    by_cases hw :
        ((m.type == some "TYPE_WHATSAPP" || jsFalsyStr m.type) && includeWhatsApp)
          = true
    · simp [hw]
    · simp [hw]

theorem processMessages_no_calls (includeSMS includeWhatsApp : Bool)
    (tr : Nat → Option TransResult) (msgs : List RawMsg) :
    (processMessages false includeSMS includeWhatsApp tr msgs).2 = [] ∧
    ∀ e ∈ (processMessages false includeSMS includeWhatsApp tr msgs).1,
      e.type ≠ "CALL" := by
  induction msgs with
  | nil => simp [processMessages]
  | cons m ms ih =>
    have hm := processMsg_no_calls includeSMS includeWhatsApp tr m
    constructor
    · simp [processMessages, hm.1, ih.1]
    · intro e he
      simp only [processMessages, List.mem_append] at he
      rcases he with he | he
      · exact hm.2 e he
      · exact ih.2 e he

/-! ### Claim theorems for the analyze-contact pipeline -/

/-- Claim C3: for every collection of messages gathered across a contact
conversations, in any fetch order, the timeline rendered by
analyze-contact is sorted ascending by message timestamp, and entries
with equal timestamps keep their original encounter order (the filter at
each timestamp is unchanged by the sort). -/
theorem timeline_sorted_and_stable (c : Contact) (convs : List Conv)
    (includeCalls includeSMS includeWhatsApp : Bool)
    (tr : Nat → Option TransResult) :
    (analyzeContact c convs includeCalls includeSMS includeWhatsApp
        tr).sortedTimeline.Sorted (fun a b => a.date ≤ b.date) ∧
    ∀ t : Nat,
      (analyzeContact c convs includeCalls includeSMS includeWhatsApp
          tr).sortedTimeline.filter (fun e => e.date == t) =
        (analyzeContact c convs includeCalls includeSMS includeWhatsApp
            tr).allMessages.filter (fun e => e.date == t) := by
  refine ⟨sorted_sortByDate _, fun t => filter_sortByDate _ t⟩

/-- Claim C8: with includeCalls = false no CALL entry appears in the
built timeline (sorted or unsorted) and no transcription record is
produced, for any messages and any transcription oracle. -/
theorem no_call_entries_when_calls_excluded (c : Contact)
    (convs : List Conv) (includeSMS includeWhatsApp : Bool)
    (tr : Nat → Option TransResult) :
    (∀ e ∈ (analyzeContact c convs false includeSMS includeWhatsApp
        tr).allMessages, e.type ≠ "CALL") ∧
    (∀ e ∈ (analyzeContact c convs false includeSMS includeWhatsApp
        tr).sortedTimeline, e.type ≠ "CALL") ∧
    (analyzeContact c convs false includeSMS includeWhatsApp
        tr).transcriptions = [] := by
  have h := processMessages_no_calls includeSMS includeWhatsApp tr
    (gatherMessages convs)
  refine ⟨h.2, ?_, h.1⟩
  intro e he
  have he2 : e ∈ (processMessages false includeSMS includeWhatsApp tr
      (gatherMessages convs)).1 := by
    have hperm : ∀ l : List Entry, ∀ a : Entry, a ∈ sortByDate l → a ∈ l := by
      intro l
      induction l with
      | nil => intro a ha; simpa [sortByDate] using ha
      | cons m ms ih =>
        intro a ha
        rcases mem_insertByDate.mp ha with rfl | ha
        · exact List.mem_cons_self a ms
        · exact List.mem_cons_of_mem m (ih a ha)
    exact hperm _ e he
  exact h.2 e he2

/-- Claim C2 (tolerated per-call transcription failure): with includeCalls true
and an oracle that fails on a strict subset of the call messages, the
run still completes into a persisted analysis whose metadata.totalCalls
is exactly the number of successfully transcribed calls; the
transcription records correspond one-to-one, in order, to the successful
calls, and the CALL timeline entries likewise, so failed calls
contribute no record and no entry. -/
theorem transcription_failure_tolerated (c : Contact)
    (convs : List Conv) (includeSMS includeWhatsApp : Bool)
    (tr : Nat → Option TransResult)
    (hstrict :
      ((callMessages convs).filter (fun m => (tr m.id).isNone)).length <
        (callMessages convs).length) :
    (analyzeContact c convs true includeSMS includeWhatsApp tr).totalCalls
        = (okCalls tr convs).length ∧
    (analyzeContact c convs true includeSMS includeWhatsApp
        tr).transcriptions.map (fun r => r.messageId) =
      (okCalls tr convs).map (fun m => m.id) ∧
    ((analyzeContact c convs true includeSMS includeWhatsApp
        tr).allMessages.filter (fun e => e.type == "CALL")).map
        (fun e => e.date) =
      (okCalls tr convs).map (fun m => m.dateAdded) := by
  have h := processMessages_call_spec includeSMS includeWhatsApp tr
    (gatherMessages convs)
  refine ⟨?_, h.1, h.2⟩
  have hlen := congrArg List.length h.1
  simpa [okCalls] using hlen

/-- Witness for claim C2: two call messages, the second transcription
fails; totalCalls is 1 and only the first call contributes records. -/
theorem transcription_failure_tolerated_witness :
    (analyzeContact ⟨some "Ana", some "Li", none, none⟩
        [⟨1, [⟨1, some "TYPE_CALL", "", some "inbound", 10⟩,
              ⟨2, some "TYPE_CALL", "", some "inbound", 20⟩]⟩] true true true
        (fun n => if n = 1 then some ⟨"hola", 3⟩ else none)).totalCalls =
      (okCalls (fun n => if n = 1 then some ⟨"hola", 3⟩ else none)
        [⟨1, [⟨1, some "TYPE_CALL", "", some "inbound", 10⟩,
              ⟨2, some "TYPE_CALL", "", some "inbound", 20⟩]⟩]).length := by
  exact (transcription_failure_tolerated
    ⟨some "Ana", some "Li", none, none⟩
    [⟨1, [⟨1, some "TYPE_CALL", "", some "inbound", 10⟩,
          ⟨2, some "TYPE_CALL", "", some "inbound", 20⟩]⟩] true true
    (fun n => if n = 1 then some ⟨"hola", 3⟩ else none)
    (by decide)).1

/-- Counterexample to claim C4: a message whose type is the unrecognized
non-null string TYPE_EMAIL is dropped by the classifier even though
includeWhatsApp is true — it produces no timeline entry at all, so it is
not classified as WHATSAPP. -/
theorem unrecognized_type_dropped_cx :
    (analyzeContact ⟨some "Ana", some "Li", none, none⟩
        [⟨1, [⟨1, some "TYPE_EMAIL", "hello", some "inbound", 5⟩]⟩]
        true true true (fun _ => none)).allMessages = [] ∧
    (analyzeContact ⟨some "Ana", some "Li", none, none⟩
        [⟨1, [⟨1, some "TYPE_EMAIL", "hello", some "inbound", 5⟩]⟩]
        true true true (fun _ => none)).sortedTimeline = [] := by
  constructor <;> rfl

/-- Claim C4 as amended: the classifier assigns CALL to TYPE_CALL, SMS
to TYPE_SMS, and WHATSAPP to TYPE_WHATSAPP or a falsy type — missing,
null, or the empty string; a message whose type is any other non-empty
non-null string is dropped (no channel, no timeline entry), not treated
as WHATSAPP. -/
theorem message_channel_classification
    (includeCalls includeSMS includeWhatsApp : Bool)
    (tr : Nat → Option TransResult) (m : RawMsg) :
    (processMsg includeCalls includeSMS includeWhatsApp tr m).1.map
        (fun e => e.type) =
      if m.type = some "TYPE_CALL" then
        (if includeCalls ∧ (tr m.id).isSome = true then ["CALL"] else [])
      else if m.type = some "TYPE_SMS" then
        (if includeSMS then ["SMS"] else [])
      else if m.type = some "TYPE_WHATSAPP" ∨ m.type = none ∨
          m.type = some "" then
        (if includeWhatsApp then ["WHATSAPP"] else [])
      else [] := by
  by_cases hc : m.type = some "TYPE_CALL"
  · rw [if_pos hc]
    cases includeCalls with
    | true =>
      cases htr : tr m.id with
      | some t => simp [processMsg, hc, htr, jsFalsyStr]
      | none => simp [processMsg, hc, htr, jsFalsyStr]
    | false => simp [processMsg, hc, jsFalsyStr]
  · rw [if_neg hc]
    by_cases hs : m.type = some "TYPE_SMS"
    · rw [if_pos hs]
      cases includeSMS with
      | true => simp [processMsg, hs, jsFalsyStr]
      | false => simp [processMsg, hs, jsFalsyStr]
    · rw [if_neg hs]
      by_cases hw : m.type = some "TYPE_WHATSAPP" ∨ m.type = none ∨
          m.type = some ""
      · rw [if_pos hw]
        cases includeWhatsApp with
        | true =>
          rcases hw with hw | hw | hw
          · simp [processMsg, hw, jsFalsyStr]
          · simp [processMsg, hw, jsFalsyStr]
          · simp [processMsg, hw, jsFalsyStr]
        | false =>
          rcases hw with hw | hw | hw
          · simp [processMsg, hw, hc, hs, jsFalsyStr]
          · simp [processMsg, hw, jsFalsyStr]
          · simp [processMsg, hw, jsFalsyStr]
      · rw [if_neg hw]
        push_neg at hw
        cases hmt : m.type with
        | none => exact absurd hmt hw.2.1
        | some s =>
          have h1 : ¬ s = "TYPE_CALL" := by
            intro h
            rw [h] at hmt
            exact hc hmt
          have h2 : ¬ s = "TYPE_SMS" := by
            intro h
            rw [h] at hmt
            exact hs hmt
          have h3 : ¬ s = "TYPE_WHATSAPP" := by
            intro h
            rw [h] at hmt
            exact hw.1 hmt
          have h4 : ¬ s = "" := by
            intro h
            rw [h] at hmt
            exact hw.2.2 hmt
          simp [processMsg, hmt, h1, h2, h3, h4, jsFalsyStr]

/-- Counterexample to claim C9: for a contact with a first name but no
last name, the contact-name snapshot persisted by analyze-contact is the
literal text "John undefined", not the trimmed display name "John". -/
theorem contact_name_literal_undefined_cx :
    (analyzeContact ⟨some "John", none, none, none⟩ [] true true true
        (fun _ => none)).contactName = "John undefined" ∧
    displayName ⟨some "John", none, none, none⟩ = "John" ∧
    (analyzeContact ⟨some "John", none, none, none⟩ [] true true true
        (fun _ => none)).contactName ≠
      displayName ⟨some "John", none, none, none⟩ := by
  refine ⟨rfl, ?_, ?_⟩ <;> decide

/-- Claim C9 as amended: the contact-name snapshot stored by
analyze-contact is the raw, untrimmed template rendering of first and
last name joined by one space, where an absent component renders as the
literal text "undefined"; when both components are present it is their
plain space-joined concatenation. -/
theorem analysis_contact_name_spec (c : Contact) (convs : List Conv)
    (includeCalls includeSMS includeWhatsApp : Bool)
    (tr : Nat → Option TransResult) :
    ((analyzeContact c convs includeCalls includeSMS includeWhatsApp
        tr).contactName = jsShow c.firstName ++ " " ++ jsShow c.lastName) ∧
    (∀ a b : String, c.firstName = some a → c.lastName = some b →
      (analyzeContact c convs includeCalls includeSMS includeWhatsApp
          tr).contactName = a ++ " " ++ b) ∧
    (c.firstName = none →
      (analyzeContact c convs includeCalls includeSMS includeWhatsApp
          tr).contactName = "undefined " ++ jsShow c.lastName) := by
  refine ⟨rfl, ?_, ?_⟩
  · intro a b ha hb
    simp [analyzeContact, jsShow, ha, hb]
  · intro ha
    simp [analyzeContact, jsShow, ha]

/-- Witness for the amended claim C9 at a concrete contact with both
name components present. -/
theorem analysis_contact_name_spec_witness :
    (analyzeContact ⟨some "Ana", some "Li", none, none⟩ [] true true true
        (fun _ => none)).contactName = "Ana" ++ " " ++ "Li" := by
  exact (analysis_contact_name_spec ⟨some "Ana", some "Li", none, none⟩ []
    true true true (fun _ => none)).2.1 "Ana" "Li" rfl rfl

/-! ### Prompt store (v2.7 handlers, lines 2309-2489; v2.3 restore,
lines 732-775).  Rows live in a list in insertion order; supabase
assigns fresh ids, modeled by a counter. -/

/-- A prompt row (v2.7 insert at lines 2343-2359).  The settings JSON,
creation time and similar claim-irrelevant columns are omitted. -/
structure Prompt where
  id : Nat
  version : Nat
  content : String
  createdBy : String
  promptType : String
  isActive : Bool
deriving Repr, DecidableEq

/-- The prompts table plus the id sequence. -/
structure PromptStore where
  rows : List Prompt
  nextId : Nat
deriving Repr, DecidableEq

/-- The empty store. -/
def emptyStore : PromptStore := ⟨[], 0⟩

/-- Outcome of a handler, as the HTTP status class it responds with. -/
inductive HStatus where
  | ok
  | badRequest
  | notFound
  | serverError
deriving Repr, DecidableEq

/-- Supabase .single(): succeeds only when the filtered row set has
exactly one row, otherwise yields error PGRST116 (which every handler
here rethrows into its 500 branch). -/
def singleRow (rowsFound : List Prompt) : Except String Prompt :=
  match rowsFound with
  | [p] => Except.ok p
  | _ => Except.error "PGRST116"

/-- The max-version query of POST /api/prompts (v2.7 lines 2327-2335):
select version where prompt_type = t order by version desc limit 1;
the .single() error is discarded there, so an empty type yields 0. -/
def maxVersionOfType (s : PromptStore) (t : String) : Nat :=
  ((s.rows.filter (fun p => p.promptType == t)).map
      (fun p => p.version)).foldr max 0

/-- The update of lines 2337-2341 (and 2405-2409): set is_active false
on rows that are active and of the given type. -/
def deactivateOfType (t : String) (p : Prompt) : Prompt :=
  if p.isActive && p.promptType == t then { p with isActive := false } else p

/-- The v2.3 update of lines 734-737: set is_active false on every
active row, with no type scoping. -/
def deactivateActive (p : Prompt) : Prompt :=
  if p.isActive then { p with isActive := false } else p

/-- The update of lines 2411-2414 (and 2471-2474): set is_active true
on the row with the given id. -/
def activateId (pid : Nat) (q : Prompt) : Prompt :=
  if q.id == pid then { q with isActive := true } else q

/-- The deactivate-then-insert transaction of POST /api/prompts
(v2.7 lines 2327-2361): compute next version, deactivate every active
prompt of the same type, insert the new row as active. -/
def createPrompt (s : PromptStore) (content createdBy promptType : String) :
    PromptStore × Prompt :=
  let v := maxVersionOfType s promptType + 1
  let newP : Prompt := ⟨s.nextId, v, content, createdBy, promptType, true⟩
  (⟨(s.rows.map (deactivateOfType promptType)) ++ [newP],
    s.nextId + 1⟩, newP)

/-- The full POST /api/prompts handler (v2.7 lines 2309-2386):
400 when content is missing/empty or the type is not setter/closer,
otherwise the create transaction.  A missing content field is modeled
as the empty string (both are falsy in `if (!content)`). -/
def createHandler (s : PromptStore) (content createdBy promptType : String) :
    PromptStore × Option Prompt × HStatus :=
  if content = "" then (s, none, HStatus.badRequest)
  else if promptType = "setter" ∨ promptType = "closer" then
    let r := createPrompt s content createdBy promptType
    (r.1, some r.2, HStatus.ok)
  else (s, none, HStatus.badRequest)

/-- POST /api/prompts/:id/restore in v2.7 (lines 2388-2441): fetch the
row by id with .single() — a PGRST116 error is rethrown, reaching the
catch (500) before the 404 branch, which is therefore unreachable —
then deactivate the active prompts of that type and activate the id. -/
def restorePrompt (s : PromptStore) (pid : Nat) : PromptStore × HStatus :=
  match singleRow (s.rows.filter (fun p => p.id == pid)) with
  | Except.error _ => (s, HStatus.serverError)
  | Except.ok p =>
    let rows1 := s.rows.map (deactivateOfType p.promptType)
    let rows2 := rows1.map (activateId pid)
    match singleRow (rows2.filter (fun q => q.id == pid)) with
    | Except.error _ => (⟨rows2, s.nextId⟩, HStatus.serverError)
    | Except.ok _ => (⟨rows2, s.nextId⟩, HStatus.ok)

/-- POST /api/prompts/:id/restore in v2.3 (lines 732-775): deactivates
every active prompt (no type scoping) BEFORE looking the id up; the
activating update with .select().single() then errors when the id is
absent, so the handler answers 500 with the deactivation already
committed, and its 404 branch is likewise unreachable. -/
def restorePromptV23 (s : PromptStore) (pid : Nat) : PromptStore × HStatus :=
  let rows1 := s.rows.map deactivateActive
  let rows2 := rows1.map (activateId pid)
  match singleRow (rows2.filter (fun q => q.id == pid)) with
  | Except.error _ => (⟨rows2, s.nextId⟩, HStatus.serverError)
  | Except.ok _ => (⟨rows2, s.nextId⟩, HStatus.ok)

/-- First row attaining the maximal version, modeling the
order-by-version-desc-limit-1 query of the delete handler
(v2.7 lines 2462-2468); in reachable stores versions are unique per
type, so the tie-break does not matter. -/
def firstMaxVersion : List Prompt → Option Prompt
  | [] => none
  | p :: ps =>
    match firstMaxVersion ps with
    | none => some p
    | some q => if p.version < q.version then some q else some p

/-- DELETE /api/prompts/:id (v2.7 lines 2443-2489): delete by id (the
.single() on the deleted rows errors into the 500 branch when the id
is absent, the 404 branch being unreachable); if the deleted row was
active, activate the highest-version remaining row of its type, if
any. -/
def deletePrompt (s : PromptStore) (pid : Nat) : PromptStore × HStatus :=
  let deleted := s.rows.filter (fun p => p.id == pid)
  let remaining := s.rows.filter (fun p => !(p.id == pid))
  match singleRow deleted with
  | Except.error _ => (⟨remaining, s.nextId⟩, HStatus.serverError)
  | Except.ok p =>
    if p.isActive then
      match firstMaxVersion
          (remaining.filter (fun q => q.promptType == p.promptType)) with
      | some latest =>
        (⟨remaining.map (activateId latest.id), s.nextId⟩, HStatus.ok)
      | none => (⟨remaining, s.nextId⟩, HStatus.ok)
    else (⟨remaining, s.nextId⟩, HStatus.ok)

/-- The three mutating prompt-store operations. -/
inductive POp where
  | create (content createdBy promptType : String)
  | restore (pid : Nat)
  | del (pid : Nat)
deriving Repr, DecidableEq

/-- State after a single handler invocation. -/
def applyOp (s : PromptStore) (op : POp) : PromptStore :=
  match op with
  | POp.create content createdBy promptType =>
    (createHandler s content createdBy promptType).1
  | POp.restore pid => (restorePrompt s pid).1
  | POp.del pid => (deletePrompt s pid).1

/-- A prompt-store state reachable from the empty store through the
v2.7 handlers. -/
inductive ReachableStore : PromptStore → Prop where
  | init : ReachableStore emptyStore
  | step (s : PromptStore) (op : POp) :
      ReachableStore s → ReachableStore (applyOp s op)

/-- Number of active prompts of a given type. -/
def activeCount (rows : List Prompt) (t : String) : Nat :=
  rows.countP (fun p => p.isActive && p.promptType == t)

/-- The inductive invariant: ids bounded by the id sequence, ids
pairwise distinct, and at most one active prompt per type. -/
def StoreInv (s : PromptStore) : Prop :=
  (∀ p ∈ s.rows, p.id < s.nextId) ∧
  (s.rows.map (fun p => p.id)).Nodup ∧
  ∀ t, activeCount s.rows t ≤ 1

/-! ### Helper lemmas about the row updates -/

theorem deactivateOfType_id (t : String) (p : Prompt) :
    (deactivateOfType t p).id = p.id := by
  unfold deactivateOfType
  by_cases h : (p.isActive && p.promptType == t) = true <;> simp [h]

theorem deactivateOfType_promptType (t : String) (p : Prompt) :
    (deactivateOfType t p).promptType = p.promptType := by
  unfold deactivateOfType
  by_cases h : (p.isActive && p.promptType == t) = true <;> simp [h]

theorem deactivateOfType_version (t : String) (p : Prompt) :
    (deactivateOfType t p).version = p.version := by
  unfold deactivateOfType
  by_cases h : (p.isActive && p.promptType == t) = true <;> simp [h]

theorem deactivateOfType_isActive (t : String) (p : Prompt) :
    (deactivateOfType t p).isActive = (p.isActive && !(p.promptType == t)) := by
  unfold deactivateOfType
  by_cases ha : p.isActive <;> by_cases hb : (p.promptType == t) = true <;>
    simp [ha, hb]

theorem deactivateActive_id (p : Prompt) :
    (deactivateActive p).id = p.id := by
  unfold deactivateActive
  by_cases h : p.isActive <;> simp [h]

theorem deactivateActive_isActive (p : Prompt) :
    (deactivateActive p).isActive = false := by
  unfold deactivateActive
  by_cases h : p.isActive <;> simp [h]

theorem activateId_id (pid : Nat) (q : Prompt) :
    (activateId pid q).id = q.id := by
  unfold activateId
  by_cases h : (q.id == pid) = true <;> simp [h]

theorem activateId_promptType (pid : Nat) (q : Prompt) :
    (activateId pid q).promptType = q.promptType := by
  unfold activateId
  by_cases h : (q.id == pid) = true <;> simp [h]

theorem activateId_version (pid : Nat) (q : Prompt) :
    (activateId pid q).version = q.version := by
  unfold activateId
  by_cases h : (q.id == pid) = true <;> simp [h]

theorem activateId_isActive (pid : Nat) (q : Prompt) :
    (activateId pid q).isActive = ((q.id == pid) || q.isActive) := by
  unfold activateId
  by_cases h : (q.id == pid) = true <;> simp [h]

theorem countP_congr_mem {α : Type} {p q : α → Bool} :
    ∀ {l : List α}, (∀ a ∈ l, p a = q a) → l.countP p = l.countP q := by
  intro l
  induction l with
  | nil => intro _; rfl
  | cons a l ih =>
    intro h
    rw [List.countP_cons, List.countP_cons, h a (List.mem_cons_self a l),
      ih (fun b hb => h b (List.mem_cons_of_mem a hb))]

theorem singleRow_ok {l : List Prompt} {p : Prompt}
    (h : singleRow l = Except.ok p) : l = [p] := by
  match l with
  | [] => simp [singleRow] at h
  | [a] =>
    simp only [singleRow, Except.ok.injEq] at h
    rw [h]
  | a :: b :: t => simp [singleRow] at h

theorem filter_eq_singleton_facts {l : List Prompt} {f : Prompt → Bool}
    {p : Prompt} (h : l.filter f = [p]) :
    p ∈ l ∧ f p = true ∧ ∀ q ∈ l, f q = true → q = p := by
  have hp : p ∈ l.filter f := by
    rw [h]
    exact List.mem_cons_self p []
  refine ⟨(List.mem_filter.mp hp).1, (List.mem_filter.mp hp).2, ?_⟩
  intro q hq hfq
  have : q ∈ l.filter f := List.mem_filter.mpr ⟨hq, hfq⟩
  rw [h] at this
  exact List.mem_singleton.mp this

theorem countP_id_eq_one {l : List Prompt}
    (hnd : (l.map (fun p => p.id)).Nodup) {p : Prompt} (hp : p ∈ l)
    {pid : Nat} (hpid : p.id = pid) :
    l.countP (fun q => q.id == pid) = 1 := by
  induction l with
  | nil => cases hp
  | cons a t ih =>
    rw [List.map_cons, List.nodup_cons] at hnd
    rw [List.countP_cons]
    rcases List.mem_cons.mp hp with rfl | hp2
    · have ht : t.countP (fun q => q.id == pid) = 0 := by
        rw [List.countP_eq_zero]
        intro q hq
        simp only [beq_iff_eq]
        intro hqe
        exact hnd.1 (List.mem_map.mpr ⟨q, hq, by rw [hqe, hpid]⟩)
      rw [ht, if_pos (by simpa using hpid)]
    · have ha : ¬ (a.id == pid) = true := by
        simp only [beq_iff_eq]
        intro hae
        exact hnd.1 (List.mem_map.mpr ⟨p, hp2, by rw [hpid, ← hae]⟩)
      rw [ih hnd.2 hp2, if_neg ha]

theorem firstMaxVersion_eq_none {l : List Prompt} :
    firstMaxVersion l = none ↔ l = [] := by
  cases l with
  | nil => simp [firstMaxVersion]
  | cons p ps =>
    simp only [firstMaxVersion]
    cases firstMaxVersion ps with
    | none => simp
    | some q =>
      by_cases h : p.version < q.version <;> simp [h]

theorem firstMaxVersion_spec {l : List Prompt} {q : Prompt}
    (h : firstMaxVersion l = some q) :
    q ∈ l ∧ ∀ r ∈ l, r.version ≤ q.version := by
  induction l generalizing q with
  | nil => simp [firstMaxVersion] at h
  | cons p ps ih =>
    simp only [firstMaxVersion] at h
    cases hr : firstMaxVersion ps with
    | none =>
      rw [hr] at h
      dsimp only at h
      simp only [Option.some.injEq] at h
      subst h
      have hps : ps = [] := firstMaxVersion_eq_none.mp hr
      subst hps
      refine ⟨List.mem_cons_self p [], ?_⟩
      intro r hrm
      rw [List.mem_singleton.mp hrm]
    | some m =>
      rw [hr] at h
      dsimp only at h
      have hm := ih hr
      by_cases hv : p.version < m.version
      · rw [if_pos hv] at h
        simp only [Option.some.injEq] at h
        subst h
        refine ⟨List.mem_cons_of_mem p hm.1, ?_⟩
        intro r hrm
        rcases List.mem_cons.mp hrm with rfl | hrm2
        · exact Nat.le_of_lt hv
        · exact hm.2 r hrm2
      · rw [if_neg hv] at h
        simp only [Option.some.injEq] at h
        subst h
        refine ⟨List.mem_cons_self p ps, ?_⟩
        intro r hrm
        rcases List.mem_cons.mp hrm with rfl | hrm2
        · exact Nat.le_refl r.version
        · exact Nat.le_trans (hm.2 r hrm2) (Nat.le_of_not_lt hv)

theorem countP_split {α : Type} (l : List α) (p f : α → Bool) :
    l.countP p =
      l.countP (fun a => p a && f a) + l.countP (fun a => p a && !(f a)) := by
  induction l with
  | nil => rfl
  | cons a t ih =>
    rw [List.countP_cons, List.countP_cons, List.countP_cons, ih]
    cases hp : p a <;> cases hf : f a <;> simp [hp, hf] <;> omega

theorem countP_active_map_deactType (rows : List Prompt) (t t0 : String) :
    (rows.map (deactivateOfType t)).countP
        (fun p => p.isActive && p.promptType == t0) =
      if t0 = t then 0 else activeCount rows t0 := by
  rw [List.countP_map]
  by_cases h : t0 = t
  · subst h
    rw [if_pos rfl, List.countP_eq_zero]
    intro p _
    show ¬ ((deactivateOfType t0 p).isActive &&
      ((deactivateOfType t0 p).promptType == t0)) = true
    rw [deactivateOfType_isActive, deactivateOfType_promptType]
    cases hB : (p.promptType == t0) <;> simp [hB]
  · rw [if_neg h]
    unfold activeCount
    apply countP_congr_mem
    intro p _
    show ((deactivateOfType t p).isActive &&
        ((deactivateOfType t p).promptType == t0)) =
      (p.isActive && (p.promptType == t0))
    rw [deactivateOfType_isActive, deactivateOfType_promptType]
    by_cases hB : (p.promptType == t0) = true
    · have hBt : p.promptType = t0 := by simpa using hB
      have hT : (p.promptType == t) = false := by
        rw [hBt]
        exact beq_eq_false_iff_ne.mpr h
      simp [hB, hT]
    · have hB2 : (p.promptType == t0) = false := by
        simpa using hB
      simp [hB2]

theorem activeCount_createPrompt (s : PromptStore) (c cb t t0 : String) :
    activeCount (createPrompt s c cb t).1.rows t0 =
      if t0 = t then 1 else activeCount s.rows t0 := by
  show activeCount ((s.rows.map (deactivateOfType t)) ++
    [⟨s.nextId, maxVersionOfType s t + 1, c, cb, t, true⟩]) t0 = _
  unfold activeCount
  rw [List.countP_append]
  have hmap := countP_active_map_deactType s.rows t t0
  rw [hmap]
  by_cases h : t0 = t
  · subst h
    rw [if_pos rfl, if_pos rfl]
    simp [List.countP_cons]
  · rw [if_neg h, if_neg h]
    have hne : (t == t0) = false := beq_eq_false_iff_ne.mpr
      (fun he => h he.symm)
    simp [List.countP_cons, hne, activeCount]

theorem storeInv_createPrompt (s : PromptStore) (c cb t : String)
    (h : StoreInv s) : StoreInv (createPrompt s c cb t).1 := by
  obtain ⟨hb, hnd, hcnt⟩ := h
  refine ⟨?_, ?_, ?_⟩
  · intro p hp
    show p.id < s.nextId + 1
    have hp2 : p ∈ (s.rows.map (deactivateOfType t)) ++
        [⟨s.nextId, maxVersionOfType s t + 1, c, cb, t, true⟩] := hp
    rcases List.mem_append.mp hp2 with hp3 | hp3
    · rcases List.mem_map.mp hp3 with ⟨q, hq, rfl⟩
      rw [deactivateOfType_id]
      exact Nat.lt_succ_of_lt (hb q hq)
    · rw [List.mem_singleton.mp hp3]
      exact Nat.lt_succ_self _
  · show (((s.rows.map (deactivateOfType t)) ++
      [(⟨s.nextId, maxVersionOfType s t + 1, c, cb, t, true⟩ : Prompt)]).map
        (fun p => p.id)).Nodup
    rw [List.map_append, List.nodup_append]
    have hid : (s.rows.map (deactivateOfType t)).map (fun p => p.id) =
        s.rows.map (fun p => p.id) := by
      rw [List.map_map]
      exact List.map_congr_left (fun a _ => deactivateOfType_id t a)
    refine ⟨by rw [hid]; exact hnd, by simp, ?_⟩
    rw [hid]
    show (s.rows.map (fun p => p.id)).Disjoint [s.nextId]
    rw [List.disjoint_singleton]
    intro hmem
    rcases List.mem_map.mp hmem with ⟨q, hq, hqe⟩
    exact absurd hqe (Nat.ne_of_lt (hb q hq))
  · intro t0
    rw [activeCount_createPrompt]
    by_cases h : t0 = t
    · rw [if_pos h]
    · rw [if_neg h]
      exact hcnt t0

theorem eq_of_id_eq {l : List Prompt}
    (hnd : (l.map (fun p => p.id)).Nodup) {a b : Prompt}
    (ha : a ∈ l) (hb : b ∈ l) (he : a.id = b.id) : a = b :=
  List.inj_on_of_nodup_map hnd ha hb he

theorem activeCount_restore_rows (rows : List Prompt) (pid : Nat)
    (p : Prompt) (hnd : (rows.map (fun q => q.id)).Nodup)
    (hfil : rows.filter (fun q => q.id == pid) = [p])
    (hcnt : ∀ t, activeCount rows t ≤ 1) (t0 : String) :
    activeCount ((rows.map (deactivateOfType p.promptType)).map
      (activateId pid)) t0 ≤ 1 := by
  obtain ⟨hpm, hpf, hpu⟩ := filter_eq_singleton_facts hfil
  have hpid : p.id = pid := by simpa using hpf
  unfold activeCount
  rw [List.map_map, List.countP_map]
  by_cases ht : t0 = p.promptType
  · rw [ht]
    have hcongr : rows.countP
          ((fun q => q.isActive && q.promptType == p.promptType) ∘
            (activateId pid ∘ deactivateOfType p.promptType)) =
        rows.countP (fun q => q.id == pid) := by
      apply countP_congr_mem
      intro q hq
      simp only [Function.comp_apply]
      rw [activateId_isActive, activateId_promptType, deactivateOfType_id,
        deactivateOfType_isActive, deactivateOfType_promptType]
      by_cases hqid : (q.id == pid) = true
      · have hqp : q = p := hpu q hq hqid
        subst hqp
        simp [hqid]
      · have hqid2 : (q.id == pid) = false := by simpa using hqid
        rw [hqid2]
        cases hqt : (q.promptType == p.promptType) <;> simp [hqt]
    rw [hcongr, countP_id_eq_one hnd hpm hpid]
  · have hcongr : rows.countP ((fun q => q.isActive && q.promptType == t0) ∘
          (activateId pid ∘ deactivateOfType p.promptType)) =
        rows.countP (fun q => q.isActive && q.promptType == t0) := by
      apply countP_congr_mem
      intro q hq
      simp only [Function.comp_apply]
      rw [activateId_isActive, activateId_promptType, deactivateOfType_id,
        deactivateOfType_isActive, deactivateOfType_promptType]
      by_cases hqid : (q.id == pid) = true
      · have hqp : q = p := hpu q hq hqid
        subst hqp
        have hne : (q.promptType == t0) = false :=
          beq_eq_false_iff_ne.mpr (fun he => ht he.symm)
        simp [hne]
      · have hqid2 : (q.id == pid) = false := by simpa using hqid
        rw [hqid2]
        by_cases hqt : (q.promptType == t0) = true
        · have hq0 : q.promptType = t0 := by simpa using hqt
          have hqT : (q.promptType == p.promptType) = false := by
            rw [hq0]
            exact beq_eq_false_iff_ne.mpr (fun he => ht he)
          simp [hqt, hqT]
        · have hqt2 : (q.promptType == t0) = false := by simpa using hqt
          simp [hqt2]
    rw [hcongr]
    exact hcnt t0

theorem storeInv_restore_rows (s : PromptStore) (pid : Nat) (p : Prompt)
    (h : StoreInv s) (hfil : s.rows.filter (fun q => q.id == pid) = [p]) :
    StoreInv ⟨(s.rows.map (deactivateOfType p.promptType)).map
      (activateId pid), s.nextId⟩ := by
  obtain ⟨hb, hnd, hcnt⟩ := h
  refine ⟨?_, ?_, ?_⟩
  · intro q hq
    rcases List.mem_map.mp hq with ⟨q1, hq1, rfl⟩
    rcases List.mem_map.mp hq1 with ⟨q2, hq2, rfl⟩
    show (activateId pid (deactivateOfType p.promptType q2)).id < s.nextId
    rw [activateId_id, deactivateOfType_id]
    exact hb q2 hq2
  · show (((s.rows.map (deactivateOfType p.promptType)).map
      (activateId pid)).map (fun q => q.id)).Nodup
    rw [List.map_map, List.map_map]
    have hmapid : s.rows.map (((fun q => q.id) ∘ activateId pid) ∘
        deactivateOfType p.promptType) = s.rows.map (fun q => q.id) := by
      apply List.map_congr_left
      intro a _
      simp only [Function.comp_apply]
      rw [activateId_id, deactivateOfType_id]
    rw [hmapid]
    exact hnd
  · exact activeCount_restore_rows s.rows pid p hnd hfil hcnt

theorem restorePrompt_fst_cases (s : PromptStore) (pid : Nat) :
    (restorePrompt s pid).1 = s ∨
    ∃ p, s.rows.filter (fun q => q.id == pid) = [p] ∧
      (restorePrompt s pid).1 =
        ⟨(s.rows.map (deactivateOfType p.promptType)).map (activateId pid),
          s.nextId⟩ := by
  unfold restorePrompt
  cases hsr : singleRow (s.rows.filter (fun q => q.id == pid)) with
  | error e => exact Or.inl rfl
  | ok p =>
    refine Or.inr ⟨p, singleRow_ok hsr, ?_⟩
    dsimp only
    cases singleRow (((s.rows.map (deactivateOfType p.promptType)).map
        (activateId pid)).filter (fun q => q.id == pid)) with
    | error e => rfl
    | ok q => rfl

theorem storeInv_restorePrompt (s : PromptStore) (pid : Nat)
    (h : StoreInv s) : StoreInv (restorePrompt s pid).1 := by
  rcases restorePrompt_fst_cases s pid with heq | ⟨p, hfil, heq⟩
  · rw [heq]
    exact h
  · rw [heq]
    exact storeInv_restore_rows s pid p h hfil

theorem deletePrompt_fst_cases (s : PromptStore) (pid : Nat) :
    ((deletePrompt s pid).1 =
      ⟨s.rows.filter (fun q => !(q.id == pid)), s.nextId⟩) ∨
    (∃ p latest, s.rows.filter (fun q => q.id == pid) = [p] ∧
      p.isActive = true ∧
      firstMaxVersion ((s.rows.filter (fun q => !(q.id == pid))).filter
        (fun q => q.promptType == p.promptType)) = some latest ∧
      (deletePrompt s pid).1 =
        ⟨(s.rows.filter (fun q => !(q.id == pid))).map (activateId latest.id),
          s.nextId⟩) := by
  unfold deletePrompt
  dsimp only
  cases hsr : singleRow (s.rows.filter (fun p => p.id == pid)) with
  | error e => exact Or.inl rfl
  | ok p =>
    dsimp only
    cases hact : p.isActive with
    | false =>
      rw [if_neg (by simp [hact])]
      exact Or.inl rfl
    | true =>
      rw [if_pos (by simp [hact])]
      cases hfm : firstMaxVersion ((s.rows.filter
          (fun q => !(q.id == pid))).filter
          (fun q => q.promptType == p.promptType)) with
      | none => exact Or.inl rfl
      | some latest =>
        exact Or.inr ⟨p, latest, singleRow_ok hsr, hact, hfm, rfl⟩

theorem storeInv_remaining (s : PromptStore) (pid : Nat) (h : StoreInv s) :
    StoreInv ⟨s.rows.filter (fun q => !(q.id == pid)), s.nextId⟩ := by
  obtain ⟨hb, hnd, hcnt⟩ := h
  refine ⟨?_, ?_, ?_⟩
  · intro q hq
    exact hb q (List.mem_filter.mp hq).1
  · exact List.Nodup.sublist
      (List.Sublist.map (fun q => q.id) (List.filter_sublist s.rows)) hnd
  · intro t
    unfold activeCount
    rw [List.countP_filter]
    refine le_trans ?_ (hcnt t)
    apply List.countP_mono_left
    intro x _ hx
    rw [Bool.and_eq_true] at hx
    exact hx.1

theorem storeInv_delete_active (s : PromptStore) (pid : Nat)
    (p latest : Prompt) (h : StoreInv s)
    (hfil : s.rows.filter (fun q => q.id == pid) = [p])
    (hact : p.isActive = true)
    (hfm : firstMaxVersion ((s.rows.filter (fun q => !(q.id == pid))).filter
      (fun q => q.promptType == p.promptType)) = some latest) :
    StoreInv ⟨(s.rows.filter (fun q => !(q.id == pid))).map
      (activateId latest.id), s.nextId⟩ := by
  obtain ⟨hb, hnd, hcnt⟩ := h
  obtain ⟨hpm, hpf, hpu⟩ := filter_eq_singleton_facts hfil
  have hpid : p.id = pid := by simpa using hpf
  have hrem_nd : ((s.rows.filter (fun q => !(q.id == pid))).map
      (fun q => q.id)).Nodup :=
    List.Nodup.sublist
      (List.Sublist.map (fun q => q.id) (List.filter_sublist s.rows)) hnd
  have hlat := firstMaxVersion_spec hfm
  have hlat_mem : latest ∈ s.rows.filter (fun q => !(q.id == pid)) :=
    (List.mem_filter.mp hlat.1).1
  have hlatT : (latest.promptType == p.promptType) = true :=
    (List.mem_filter.mp hlat.1).2
  have hlatT2 : latest.promptType = p.promptType := by simpa using hlatT
  have hzero : (s.rows.filter (fun q => !(q.id == pid))).countP
      (fun q => q.isActive && q.promptType == p.promptType) = 0 := by
    have hsplit := countP_split s.rows
      (fun q => q.isActive && q.promptType == p.promptType)
      (fun q => q.id == pid)
    have hone : 0 < s.rows.countP
        (fun q => (q.isActive && q.promptType == p.promptType) &&
          (q.id == pid)) :=
      List.countP_pos_iff.mpr ⟨p, hpm, by simp [hact, hpid]⟩
    have hcntT := hcnt p.promptType
    unfold activeCount at hcntT
    rw [List.countP_filter]
    omega
  have hzero2 : ∀ q ∈ s.rows.filter (fun q => !(q.id == pid)),
      (q.isActive && (q.promptType == p.promptType)) = false := by
    intro q hq
    have := List.countP_eq_zero.mp hzero q hq
    simpa using this
  refine ⟨?_, ?_, ?_⟩
  · intro q hq
    rcases List.mem_map.mp hq with ⟨q1, hq1, rfl⟩
    show (activateId latest.id q1).id < s.nextId
    rw [activateId_id]
    exact hb q1 (List.mem_filter.mp hq1).1
  · show (((s.rows.filter (fun q => !(q.id == pid))).map
      (activateId latest.id)).map (fun q => q.id)).Nodup
    rw [List.map_map]
    have hmapid : (s.rows.filter (fun q => !(q.id == pid))).map
        ((fun q => q.id) ∘ activateId latest.id) =
        (s.rows.filter (fun q => !(q.id == pid))).map (fun q => q.id) := by
      apply List.map_congr_left
      intro a _
      simp only [Function.comp_apply]
      rw [activateId_id]
    rw [hmapid]
    exact hrem_nd
  · intro t0
    unfold activeCount
    rw [List.countP_map]
    by_cases ht : t0 = p.promptType
    · rw [ht]
      have hcongr : (s.rows.filter (fun q => !(q.id == pid))).countP
          ((fun q => q.isActive && q.promptType == p.promptType) ∘
            activateId latest.id) =
          (s.rows.filter (fun q => !(q.id == pid))).countP
            (fun q => q.id == latest.id) := by
        apply countP_congr_mem
        intro q hq
        simp only [Function.comp_apply]
        rw [activateId_isActive, activateId_promptType]
        by_cases hqid : (q.id == latest.id) = true
        · have hqe : q = latest := eq_of_id_eq hrem_nd hq hlat_mem
            (by simpa using hqid)
          subst hqe
          simp [hqid, hlatT]
        · have hqid2 : (q.id == latest.id) = false := by simpa using hqid
          rw [hqid2]
          have := hzero2 q hq
          simp only [Bool.false_or]
          rw [this]
      rw [hcongr, countP_id_eq_one hrem_nd hlat_mem rfl]
    · have hcongr : (s.rows.filter (fun q => !(q.id == pid))).countP
          ((fun q => q.isActive && q.promptType == t0) ∘
            activateId latest.id) =
          (s.rows.filter (fun q => !(q.id == pid))).countP
            (fun q => q.isActive && q.promptType == t0) := by
        apply countP_congr_mem
        intro q hq
        simp only [Function.comp_apply]
        rw [activateId_isActive, activateId_promptType]
        by_cases hqid : (q.id == latest.id) = true
        · have hqe : q = latest := eq_of_id_eq hrem_nd hq hlat_mem
            (by simpa using hqid)
          subst hqe
          have hne : (q.promptType == t0) = false := by
            rw [hlatT2]
            exact beq_eq_false_iff_ne.mpr (fun he => ht he.symm)
          simp [hne]
        · have hqid2 : (q.id == latest.id) = false := by simpa using hqid
          rw [hqid2]
          simp
      rw [hcongr]
      have hrem := storeInv_remaining s pid ⟨hb, hnd, hcnt⟩
      exact hrem.2.2 t0

theorem storeInv_deletePrompt (s : PromptStore) (pid : Nat)
    (h : StoreInv s) : StoreInv (deletePrompt s pid).1 := by
  rcases deletePrompt_fst_cases s pid with heq |
    ⟨p, latest, hfil, hact, hfm, heq⟩
  · rw [heq]
    exact storeInv_remaining s pid h
  · rw [heq]
    exact storeInv_delete_active s pid p latest h hfil hact hfm

theorem storeInv_applyOp (s : PromptStore) (op : POp) (h : StoreInv s) :
    StoreInv (applyOp s op) := by
  cases op with
  | create content createdBy promptType =>
    show StoreInv (createHandler s content createdBy promptType).1
    unfold createHandler
    by_cases h1 : content = ""
    · rw [if_pos h1]
      exact h
    · rw [if_neg h1]
      by_cases h2 : promptType = "setter" ∨ promptType = "closer"
      · rw [if_pos h2]
        exact storeInv_createPrompt s content createdBy promptType h
      · rw [if_neg h2]
        exact h
  | restore pid => exact storeInv_restorePrompt s pid h
  | del pid => exact storeInv_deletePrompt s pid h

theorem storeInv_emptyStore : StoreInv emptyStore := by
  refine ⟨?_, ?_, ?_⟩
  · intro p hp
    cases hp
  · exact List.nodup_nil
  · intro t
    exact Nat.zero_le 1

theorem storeInv_reachable {s : PromptStore} (h : ReachableStore s) :
    StoreInv s := by
  induction h with
  | init => exact storeInv_emptyStore
  | step s op _ ih => exact storeInv_applyOp s op ih

/-- When the deleted prompt was active and prompts of its type remain,
the delete handler leaves an active prompt of that type whose version is
maximal among the remaining prompts of that type. -/
theorem delete_active_activates_max (s : PromptStore) (pid : Nat)
    (p : Prompt) (hfil : s.rows.filter (fun q => q.id == pid) = [p])
    (hact : p.isActive = true)
    (hne : (deletePrompt s pid).1.rows.filter
      (fun q => q.promptType == p.promptType) ≠ []) :
    ∃ q ∈ (deletePrompt s pid).1.rows, q.isActive = true ∧
      q.promptType = p.promptType ∧
      ∀ r ∈ (deletePrompt s pid).1.rows, r.promptType = p.promptType →
        r.version ≤ q.version := by
  have hsingle : singleRow (s.rows.filter (fun q => q.id == pid)) =
      Except.ok p := by
    rw [hfil]
    rfl
  have hfst : (deletePrompt s pid).1 =
      match firstMaxVersion ((s.rows.filter (fun q => !(q.id == pid))).filter
        (fun q => q.promptType == p.promptType)) with
      | some latest =>
        ⟨(s.rows.filter (fun q => !(q.id == pid))).map (activateId latest.id),
          s.nextId⟩
      | none => ⟨s.rows.filter (fun q => !(q.id == pid)), s.nextId⟩ := by
    unfold deletePrompt
    dsimp only
    rw [hsingle]
    dsimp only
    rw [if_pos (by simp [hact])]
    cases firstMaxVersion ((s.rows.filter (fun q => !(q.id == pid))).filter
      (fun q => q.promptType == p.promptType)) with
    | some latest => rfl
    | none => rfl
  cases hfm : firstMaxVersion ((s.rows.filter (fun q => !(q.id == pid))).filter
      (fun q => q.promptType == p.promptType)) with
  | none =>
    exfalso
    have hempty := firstMaxVersion_eq_none.mp hfm
    apply hne
    rw [hfst, hfm]
    exact hempty
  | some latest =>
    rw [hfst, hfm]
    have hspec := firstMaxVersion_spec hfm
    have hlat_mem : latest ∈ s.rows.filter (fun q => !(q.id == pid)) :=
      (List.mem_filter.mp hspec.1).1
    have hlatT : latest.promptType = p.promptType := by
      simpa using (List.mem_filter.mp hspec.1).2
    refine ⟨activateId latest.id latest, List.mem_map.mpr
      ⟨latest, hlat_mem, rfl⟩, ?_, ?_, ?_⟩
    · rw [activateId_isActive]
      simp
    · rw [activateId_promptType]
      exact hlatT
    · intro r hr hrT
      rcases List.mem_map.mp hr with ⟨r0, hr0, rfl⟩
      rw [activateId_version, activateId_version]
      have hr0T : (r0.promptType == p.promptType) = true := by
        rw [activateId_promptType] at hrT
        simpa using hrT
      exact hspec.2 r0 (List.mem_filter.mpr ⟨hr0, hr0T⟩)

/-! ### Claim theorems for the prompt store -/

/-- Claim C1: from any reachable prompt-store state, after any single
create, restore or delete handler completes, at most one prompt of each
type is active; and deleting the active prompt of a type, when prompts
of that type remain, leaves an active prompt of that type whose version
is maximal among the remaining ones. -/
theorem prompt_single_active_invariant (s : PromptStore)
    (h : ReachableStore s) (op : POp) :
    (∀ t, activeCount (applyOp s op).rows t ≤ 1) ∧
    (∀ pid p, s.rows.filter (fun q => q.id == pid) = [p] →
      p.isActive = true →
      (deletePrompt s pid).1.rows.filter
        (fun q => q.promptType == p.promptType) ≠ [] →
      ∃ q ∈ (deletePrompt s pid).1.rows, q.isActive = true ∧
        q.promptType = p.promptType ∧
        ∀ r ∈ (deletePrompt s pid).1.rows, r.promptType = p.promptType →
          r.version ≤ q.version) := by
  refine ⟨(storeInv_applyOp s op (storeInv_reachable h)).2.2, ?_⟩
  intro pid p hfil hact hne
  exact delete_active_activates_max s pid p hfil hact hne

/-- Witness for claim C1: create a setter prompt in the empty store,
then delete prompt 0; at most one setter prompt is active afterwards. -/
theorem prompt_single_active_invariant_witness :
    activeCount (applyOp (applyOp emptyStore
      (POp.create "hello" "admin" "setter")) (POp.del 0)).rows "setter"
      ≤ 1 :=
  (prompt_single_active_invariant
    (applyOp emptyStore (POp.create "hello" "admin" "setter"))
    (ReachableStore.step emptyStore (POp.create "hello" "admin" "setter")
      ReachableStore.init)
    (POp.del 0)).1 "setter"

/-- Claim C5: creating a prompt of a valid type T assigns version
1 + the maximal existing version among prompts of type T (0 when none),
and this number depends only on the rows of type T, hence not on the
versions of any other type. -/
theorem create_version_next (s : PromptStore) (content createdBy T : String)
    (hT : T = "setter" ∨ T = "closer") :
    (createPrompt s content createdBy T).2.version =
      maxVersionOfType s T + 1 ∧
    ∀ s2 : PromptStore,
      s2.rows.filter (fun p => p.promptType == T) =
        s.rows.filter (fun p => p.promptType == T) →
      (createPrompt s2 content createdBy T).2.version =
        (createPrompt s content createdBy T).2.version := by
  constructor
  · rfl
  · intro s2 h2
    show maxVersionOfType s2 T + 1 = maxVersionOfType s T + 1
    unfold maxVersionOfType
    rw [h2]

/-- Witness for claim C5: a store holding setter version 3 and closer
version 7; the created setter prompt gets version 4, untouched by the
closer sequence. -/
theorem create_version_next_witness :
    (createPrompt ⟨[⟨0, 3, "a", "u", "setter", true⟩,
        ⟨1, 7, "b", "u", "closer", true⟩], 2⟩ "x" "u" "setter").2.version =
      maxVersionOfType ⟨[⟨0, 3, "a", "u", "setter", true⟩,
        ⟨1, 7, "b", "u", "closer", true⟩], 2⟩ "setter" + 1 :=
  (create_version_next ⟨[⟨0, 3, "a", "u", "setter", true⟩,
    ⟨1, 7, "b", "u", "closer", true⟩], 2⟩ "x" "u" "setter" (Or.inl rfl)).1

/-- Claim C7 (settled against the code): restoring an absent id answers
500 (serverError), not 404 — the .single() error is rethrown before the
dead 404 branch.  In v2.7 the store is left unchanged; in the v2.3
revision the global deactivation has already run, so every previously
active prompt is left deactivated. -/
theorem restore_absent_id_behavior (s : PromptStore) (pid : Nat)
    (habsent : ∀ p ∈ s.rows, p.id ≠ pid) :
    restorePrompt s pid = (s, HStatus.serverError) ∧
    restorePromptV23 s pid =
      (⟨s.rows.map deactivateActive, s.nextId⟩, HStatus.serverError) := by
  have hfil : s.rows.filter (fun p => p.id == pid) = [] := by
    rw [List.filter_eq_nil_iff]
    intro p hp
    simpa using habsent p hp
  constructor
  · unfold restorePrompt
    rw [hfil]
    rfl
  · unfold restorePromptV23
    dsimp only
    have hact_map : ∀ q ∈ s.rows.map deactivateActive,
        activateId pid q = q := by
      intro q hq
      rcases List.mem_map.mp hq with ⟨r, hr, rfl⟩
      unfold activateId
      rw [if_neg]
      simp [deactivateActive_id, habsent r hr]
    have h2 : (s.rows.map deactivateActive).map (activateId pid) =
        s.rows.map deactivateActive := by
      rw [List.map_congr_left hact_map]
      exact List.map_id _
    rw [h2]
    have h3 : (s.rows.map deactivateActive).filter
        (fun q => q.id == pid) = [] := by
      rw [List.filter_eq_nil_iff]
      intro q hq
      rcases List.mem_map.mp hq with ⟨r, hr, rfl⟩
      simp [deactivateActive_id, habsent r hr]
    rw [h3]
    rfl

/-- Witness for claim C7: a store with one active setter prompt of id 0;
restoring id 99 answers 500 with the store unchanged. -/
theorem restore_absent_id_witness :
    restorePrompt ⟨[⟨0, 1, "a", "u", "setter", true⟩], 1⟩ 99 =
      (⟨[⟨0, 1, "a", "u", "setter", true⟩], 1⟩, HStatus.serverError) :=
  (restore_absent_id_behavior ⟨[⟨0, 1, "a", "u", "setter", true⟩], 1⟩ 99
    (by decide)).1

/-! ### Opportunity pagination loop (GET /api/opportunities, v2.7
lines 1843-1942).  The upstream search is an oracle from request URL to
response page; the loop state is the accumulated list and the next page
URL (none = the base search URL). -/

/-- The fields of an opportunity row the loop inspects. -/
structure Opp where
  id : String
  pipelineId : String
  pipelineStageId : String
deriving Repr, DecidableEq

/-- One response page: `response.data.opportunities || []` and
`response.data.meta?.nextPageUrl` (lines 1908, 1917). -/
structure OppPage where
  opportunities : List Opp
  nextPageUrl : Option String
deriving Repr, DecidableEq

/-- The base search URL of line 1898. -/
def searchUrl : String :=
  "https://services.leadconnectorhq.com/opportunities/search"

/-- The guard at line 1921 (pipelineId truthy and not the literal all):
a missing or empty (falsy) parameter, or the literal all, disables the
pipeline filter. -/
def pidFilterActive (pipelineId : Option String) : Bool :=
  match pipelineId with
  | none => false
  | some p => !(p == "") && !(p == "all")

/-- The client-side filter `opp.pipelineId === pipelineId` of
line 1922. -/
def matchesPid (pipelineId : Option String) (o : Opp) : Bool :=
  match pipelineId with
  | none => false
  | some p => o.pipelineId == p

/-- `response.data.meta?.nextPageUrl || null` (line 1917): an absent or
empty (falsy) URL becomes null. -/
def normUrl (u : Option String) : Option String :=
  match u with
  | some s => if s = "" then none else some s
  | none => none

/-- The pagination while-loop of lines 1885-1928, with explicit fuel.
Returns the accumulated opportunities and the number of page requests
issued, or none when the fuel runs out before the loop exits.  Each
iteration: fetch the current URL; an empty page breaks; otherwise
append, compute hasMore (a null or repeated nextPageUrl stops), break
early when a specific pipeline filter has accumulated at least
2 x limit matches, and continue while fewer than 1000 rows are
accumulated. -/
def oppLoop (fetchPage : String → OppPage) (pipelineId : Option String)
    (limit : Nat) :
    Nat → List Opp → Option String → Option (List Opp × Nat)
  | 0, acc, _ =>
    if acc.length < 1000 then none else some (acc, 0)
  | fuel + 1, acc, nextUrl =>
    if acc.length < 1000 then
      let url := nextUrl.getD searchUrl
      let page := fetchPage url
      if page.opportunities.isEmpty then some (acc, 1)
      else
        let acc2 := acc ++ page.opportunities
        let next2 := normUrl page.nextPageUrl
        if pidFilterActive pipelineId &&
            decide (limit * 2 ≤
              (acc2.filter (matchesPid pipelineId)).length) then
          some (acc2, 1)
        else if next2.isSome && !(next2 == some url) then
          match oppLoop fetchPage pipelineId limit fuel acc2 next2 with
          | some (r, n) => some (r, n + 1)
          | none => none
        else some (acc2, 1)
    else some (acc, 0)

/-- The loop as entered by the handler: empty accumulator, base URL.
Fuel 1000 always suffices (each iteration that continues adds at least
one row and the loop stops at 1000 rows). -/
def runOppLoop (fetchPage : String → OppPage) (pipelineId : Option String)
    (limit : Nat) : Option (List Opp × Nat) :=
  oppLoop fetchPage pipelineId limit 1000 [] none

theorem oppLoop_isSome (fetchPage : String → OppPage)
    (pipelineId : Option String) (limit : Nat) :
    ∀ (fuel : Nat) (acc : List Opp) (nextUrl : Option String),
      1000 ≤ fuel + acc.length →
      (oppLoop fetchPage pipelineId limit fuel acc nextUrl).isSome = true := by
  intro fuel
  induction fuel with
  | zero =>
    intro acc nextUrl h
    unfold oppLoop
    rw [if_neg (by omega)]
    rfl
  | succ fuel ih =>
    intro acc nextUrl h
    unfold oppLoop
    by_cases hlen : acc.length < 1000
    · rw [if_pos hlen]
      dsimp only
      by_cases hemp :
          ((fetchPage (nextUrl.getD searchUrl)).opportunities).isEmpty = true
      · rw [if_pos hemp]
        rfl
      · rw [if_neg hemp]
        by_cases hex : (pidFilterActive pipelineId &&
            decide (limit * 2 ≤
              (((acc ++ (fetchPage (nextUrl.getD searchUrl)).opportunities)
                ).filter (matchesPid pipelineId)).length)) = true
        · rw [if_pos hex]
          rfl
        · rw [if_neg hex]
          by_cases hmore :
              ((normUrl (fetchPage (nextUrl.getD searchUrl)).nextPageUrl
                ).isSome &&
              !((normUrl (fetchPage (nextUrl.getD searchUrl)).nextPageUrl) ==
                some (nextUrl.getD searchUrl))) = true
          · rw [if_pos hmore]
            have hpos :
                0 < ((fetchPage (nextUrl.getD searchUrl)).opportunities
                  ).length := by
              rw [List.length_pos]
              rw [Bool.not_eq_true] at hemp
              exact List.isEmpty_eq_false.mp hemp
            have hrec := ih
              (acc ++ (fetchPage (nextUrl.getD searchUrl)).opportunities)
              (normUrl (fetchPage (nextUrl.getD searchUrl)).nextPageUrl)
              (by rw [List.length_append]; omega)
            cases hr : oppLoop fetchPage pipelineId limit fuel
                (acc ++ (fetchPage (nextUrl.getD searchUrl)).opportunities)
                (normUrl (fetchPage (nextUrl.getD searchUrl)).nextPageUrl)
              with
            | some rn =>
              obtain ⟨r, n⟩ := rn
              rfl
            | none =>
              rw [hr] at hrec
              simp at hrec
          · rw [if_neg hmore]
            rfl
    · rw [if_neg hlen]
      rfl

theorem oppLoop_length_le (fetchPage : String → OppPage)
    (pipelineId : Option String) (limit : Nat)
    (hb : ∀ u, ((fetchPage u).opportunities).length ≤ 100) :
    ∀ (fuel : Nat) (acc : List Opp) (nextUrl : Option String)
      (r : List Opp) (n : Nat),
      oppLoop fetchPage pipelineId limit fuel acc nextUrl = some (r, n) →
      r.length ≤ max acc.length 1099 := by
  intro fuel
  induction fuel with
  | zero =>
    intro acc nextUrl r n heq
    unfold oppLoop at heq
    by_cases hlen : acc.length < 1000
    · rw [if_pos hlen] at heq
      cases heq
    · rw [if_neg hlen] at heq
      simp only [Option.some.injEq, Prod.mk.injEq] at heq
      rw [← heq.1]
      exact Nat.le_max_left _ _
  | succ fuel ih =>
    intro acc nextUrl r n heq
    unfold oppLoop at heq
    by_cases hlen : acc.length < 1000
    · rw [if_pos hlen] at heq
      dsimp only at heq
      have hacc2 : (acc ++ (fetchPage
          (nextUrl.getD searchUrl)).opportunities).length ≤ 1099 := by
        rw [List.length_append]
        have := hb (nextUrl.getD searchUrl)
        omega
      by_cases hemp :
          ((fetchPage (nextUrl.getD searchUrl)).opportunities).isEmpty = true
      · rw [if_pos hemp] at heq
        simp only [Option.some.injEq, Prod.mk.injEq] at heq
        rw [← heq.1]
        exact Nat.le_max_left _ _
      · rw [if_neg hemp] at heq
        by_cases hex : (pidFilterActive pipelineId &&
            decide (limit * 2 ≤
              (((acc ++ (fetchPage (nextUrl.getD searchUrl)).opportunities)
                ).filter (matchesPid pipelineId)).length)) = true
        · rw [if_pos hex] at heq
          simp only [Option.some.injEq, Prod.mk.injEq] at heq
          rw [← heq.1]
          exact le_trans hacc2 (Nat.le_max_right _ _)
        · rw [if_neg hex] at heq
          by_cases hmore :
              ((normUrl (fetchPage (nextUrl.getD searchUrl)).nextPageUrl
                ).isSome &&
              !((normUrl (fetchPage (nextUrl.getD searchUrl)).nextPageUrl) ==
                some (nextUrl.getD searchUrl))) = true
          · rw [if_pos hmore] at heq
            cases hr : oppLoop fetchPage pipelineId limit fuel
                (acc ++ (fetchPage (nextUrl.getD searchUrl)).opportunities)
                (normUrl (fetchPage (nextUrl.getD searchUrl)).nextPageUrl)
              with
            | some rn =>
              rw [hr] at heq
              obtain ⟨r0, n0⟩ := rn
              simp only [Option.some.injEq, Prod.mk.injEq] at heq
              have hrec := ih
                (acc ++ (fetchPage (nextUrl.getD searchUrl)).opportunities)
                (normUrl (fetchPage (nextUrl.getD searchUrl)).nextPageUrl)
                r0 n0 hr
              rw [Nat.max_eq_right hacc2] at hrec
              rw [← heq.1]
              exact le_trans hrec (Nat.le_max_right _ _)
            | none =>
              rw [hr] at heq
              cases heq
          · rw [if_neg hmore] at heq
            simp only [Option.some.injEq, Prod.mk.injEq] at heq
            rw [← heq.1]
            exact le_trans hacc2 (Nat.le_max_right _ _)
    · rw [if_neg hlen] at heq
      simp only [Option.some.injEq, Prod.mk.injEq] at heq
      rw [← heq.1]
      exact Nat.le_max_left _ _

/-! ### Claim theorems for the opportunity pagination loop -/

/-- Claim C10: for every upstream page oracle — including adversarial
ones that always answer a non-empty page with a fresh nextPageUrl — the
pagination loop terminates (fuel 1000 never runs out, since the loop
stops on an empty page, a null or repeated nextPageUrl, or at 1000
accumulated rows); and when pages honor the requested page size of 100,
at most 999 + 100 = 1099 opportunities are ever accumulated. -/
theorem opp_pagination_terminates_bounded (fetchPage : String → OppPage)
    (pipelineId : Option String) (limit : Nat) :
    (∃ rn, runOppLoop fetchPage pipelineId limit = some rn) ∧
    ((∀ u, ((fetchPage u).opportunities).length ≤ 100) →
      ∀ rn, runOppLoop fetchPage pipelineId limit = some rn →
        rn.1.length ≤ 1099) := by
  constructor
  · have hs := oppLoop_isSome fetchPage pipelineId limit 1000 [] none
      (by simp)
    exact Option.isSome_iff_exists.mp hs
  · intro hb rn heq
    obtain ⟨r, n⟩ := rn
    have hle := oppLoop_length_le fetchPage pipelineId limit hb 1000 []
      none r n heq
    simpa using hle

/-- Witness for claim C10: a single-page upstream; the loop answers
after one request and the accumulated list is within the bound. -/
theorem opp_pagination_terminates_witness :
    runOppLoop (fun _ => OppPage.mk [⟨"o1", "p1", "s1"⟩] none) none 100 =
      some ([⟨"o1", "p1", "s1"⟩], 1) ∧
    ([(⟨"o1", "p1", "s1"⟩ : Opp)]).length ≤ 1099 :=
  ⟨rfl,
    (opp_pagination_terminates_bounded
      (fun _ => OppPage.mk [⟨"o1", "p1", "s1"⟩] none) none 100).2
      (fun _ => by decide) ([⟨"o1", "p1", "s1"⟩], 1) rfl⟩

/-- Claim C6: whenever a specific pipelineId filter is active and, after
a page is appended, the accumulated opportunities matching the filter
number at least 2 x limit, the loop breaks: this iteration issues the
single page request and no further one (the request counter of the
remaining run is exactly 1). -/
theorem early_exit_stops_paging (fetchPage : String → OppPage)
    (pipelineId : Option String) (limit fuel : Nat) (acc : List Opp)
    (nextUrl : Option String)
    (hlen : acc.length < 1000)
    (hact : pidFilterActive pipelineId = true)
    (hpage : (fetchPage (nextUrl.getD searchUrl)).opportunities ≠ [])
    (hcount : limit * 2 ≤
      ((acc ++ (fetchPage (nextUrl.getD searchUrl)).opportunities).filter
        (matchesPid pipelineId)).length) :
    oppLoop fetchPage pipelineId limit (fuel + 1) acc nextUrl =
      some (acc ++ (fetchPage (nextUrl.getD searchUrl)).opportunities, 1)
    := by
  unfold oppLoop
  rw [if_pos hlen]
  dsimp only
  rw [if_neg (fun he => hpage (List.isEmpty_iff.mp he))]
  rw [if_pos (by rw [hact, decide_eq_true hcount]; rfl)]

/-- Witness for claim C6: filter p1 with limit 1; the first page already
holds two matching opportunities, so the loop stops despite a fresh
nextPageUrl. -/
theorem early_exit_stops_paging_witness :
    oppLoop (fun _ => OppPage.mk
        [⟨"o1", "p1", "s1"⟩, ⟨"o2", "p1", "s2"⟩] (some "more"))
      (some "p1") 1 6 [] none =
      some ([⟨"o1", "p1", "s1"⟩, ⟨"o2", "p1", "s2"⟩], 1) :=
  early_exit_stops_paging
    (fun _ => OppPage.mk [⟨"o1", "p1", "s1"⟩, ⟨"o2", "p1", "s2"⟩]
      (some "more"))
    (some "p1") 1 5 [] none (by decide) (by decide) (by decide) (by decide)
